import Mathlib

/-!
Verification of the nicehash-mining-bot repository against its specification.

The Python modules are shallowly embedded: Python floats become rationals
(`ℚ`), dictionaries become association lists in insertion order, exceptions
become `Option`/`Except`/outcome types, and the wall clock (`time.time()`)
becomes an explicit `now : ℚ` argument.
-/

namespace NiceHashBot

/-- The static per-algorithm NiceHash fee table built in
`ProfitCalculator.__init__` (`profit_calculator.py`): every listed algorithm
carries a 2% fee. -/
def nicehash_fees : List (String × ℚ) :=
  [("SHA256", 1/50), ("Scrypt", 1/50), ("Ethash", 1/50), ("X11", 1/50),
   ("CryptoNight", 1/50), ("Equihash", 1/50), ("Lyra2REv2", 1/50),
   ("Blake2s", 1/50), ("Blake14r", 1/50), ("DaggerHashimoto", 1/50)]

/-- The static per-pool fee table.  The same literal dictionary appears in
`ProfitCalculator.__init__` (`profit_calculator.py`), in
`ProfitRanking.calculate_profit_ranking` (`profit_ranking.py`) and in
`NiceHashBot.calculate_profit` (`mining_bot.py`). -/
def pool_fees : List (String × ℚ) :=
  [("nicehash", 1/50), ("f2pool", 1/40), ("antpool", 1/40), ("slushpool", 1/50),
   ("viabtc", 1/40), ("btc.com", 1/40), ("poolin", 1/50)]

/-- Python `str.lower`, embedded character-wise. -/
def strLower (s : String) : String := ⟨s.data.map Char.toLower⟩

/-- Pool-fee lookup shared by the three net-profit computations: the pool name
is lowercased, and unknown pools default to 2.5%
(`pool_fee_rates.get(pool_key, 0.025)`). -/
def pool_fee_rate (pool_name : String) : ℚ :=
  (pool_fees.lookup (strLower pool_name)).getD (1/40)

/-- `ProfitCalculator.calculate_net_profit` (`profit_calculator.py`).
`nicehash_fee_rate = none` models the Python default `None`, in which case the
rate is read from the static table with fallback 0.02
(`self.nicehash_fees.get(algorithm, 0.02)`). -/
def calculate_net_profit (algorithm : String) (rental_price pool_profit : ℚ)
    (pool_name : String) (nicehash_fee_rate : Option ℚ) : ℚ :=
  let fee : ℚ :=
    match nicehash_fee_rate with
    | none => (nicehash_fees.lookup algorithm).getD (1/50)
    | some f => f
  let rental_cost := rental_price * (1 + fee)
  let pool_fee_cost := pool_profit * pool_fee_rate pool_name
  pool_profit - rental_cost - pool_fee_cost

/-- `NiceHashBot.calculate_profit` (`mining_bot.py`), single-market fee format:
when the algorithm is missing from the fee map (in particular when the map is
empty) the default rate 0.03 is used. -/
def bot_calculate_profit (algorithm : String) (rental_price pool_profit : ℚ)
    (pool_name : String) (fees : List (String × ℚ)) : ℚ :=
  let fee : ℚ :=
    match fees.lookup algorithm with
    | none => 3/100
    | some f => f
  let rental_cost := rental_price * (1 + fee)
  let pool_fee_cost := pool_profit * pool_fee_rate pool_name
  pool_profit - rental_cost - pool_fee_cost

/-- Fee selection in `ProfitRanking.calculate_profit_ranking`
(`profit_ranking.py`): an empty fee map or a missing algorithm falls back to
the default 3% rate. -/
def ranking_fee (fees : List (String × ℚ)) (algorithm : String) : ℚ :=
  match fees.lookup algorithm with
  | none => 3/100
  | some f => f

/-- C1: for every algorithm, rental price, pool profit, pool name and explicit
fee rate, `ProfitCalculator.calculate_net_profit` returns
`pool_profit - rental_price*(1+fee_rate) - pool_profit*pool_fee_rate(pool_name)`
with the pool fee read from the static per-pool table; at
rental_price=0.001, pool_profit=0.002, fee_rate=0.02 and pool fee 0.02
(pool `nicehash`) the result is 0.00094 within 1e-9. -/
theorem calculate_net_profit_formula :
    (∀ (algorithm pool_name : String) (rental_price pool_profit fee_rate : ℚ),
      calculate_net_profit algorithm rental_price pool_profit pool_name (some fee_rate) =
        pool_profit - rental_price * (1 + fee_rate) - pool_profit * pool_fee_rate pool_name) ∧
    |calculate_net_profit "SHA256" (1/1000) (1/500) "nicehash" (some (1/50)) - 94/100000|
      ≤ 1/1000000000 := by
  constructor
  · intro algorithm pool_name rental_price pool_profit fee_rate
    rfl
  · have h : strLower "nicehash" = "nicehash" := by decide
    simp only [calculate_net_profit, pool_fee_rate, pool_fees, h, List.lookup]
    norm_num

/-- Guard sequence at the top of `NiceHashBot.execute_trading_strategy`
(`mining_bot.py`): the cycle is abandoned (`return`) when both maps are empty,
then when the market-price map is empty, then when the pool-profitability map
is empty; only afterwards does it proceed to the per-algorithm profit
records.  `true` means the cycle reaches the profit-record computation. -/
def execute_trading_strategy_proceeds
    (market_prices pool_profits : List (String × ℚ)) : Bool :=
  if market_prices.isEmpty && pool_profits.isEmpty then false
  else if market_prices.isEmpty then false
  else if pool_profits.isEmpty then false
  else true

/-- Guard sequence at the top of
`NiceHashBot.execute_enhanced_trading_strategy` (`mining_bot.py`): it returns
when both maps are empty and then when the market-price map is empty; an empty
pool-profitability map alone is not checked before the profit-ranking
computation. -/
def execute_enhanced_strategy_proceeds
    (market_prices pool_profits : List (String × ℚ)) : Bool :=
  if market_prices.isEmpty && pool_profits.isEmpty then false
  else if market_prices.isEmpty then false
  else true

/-- C2 counterexample: with no fee quote for the algorithm `KawPow` (absent
from the static table) and no explicit rate, `ProfitCalculator.
calculate_net_profit` computes with the fallback rate 0.02, not with the 0.03
default the claim asserts for every net-profit computation. -/
theorem calculate_net_profit_default_not_003 :
    calculate_net_profit "KawPow" (1/1000) (1/500) "nicehash" none =
      1/500 - (1/1000) * (1 + 1/50) - (1/500) * pool_fee_rate "nicehash" ∧
    calculate_net_profit "KawPow" (1/1000) (1/500) "nicehash" none ≠
      1/500 - (1/1000) * (1 + 3/100) - (1/500) * pool_fee_rate "nicehash" := by
  have h : strLower "nicehash" = "nicehash" := by decide
  constructor
  · simp [calculate_net_profit, nicehash_fees, List.lookup]
  · simp [calculate_net_profit, pool_fee_rate, pool_fees, h, nicehash_fees, List.lookup]
    norm_num

/-- C2 amended: when no fee quote exists for the algorithm,
`NiceHashBot.calculate_profit` and `ProfitRanking.calculate_profit_ranking`
fall back to the default rate 0.03, while
`ProfitCalculator.calculate_net_profit` falls back to its static per-algorithm
table with default 0.02. -/
theorem default_fee_rate_spec (fees : List (String × ℚ)) (algorithm : String)
    (rental_price pool_profit : ℚ) (pool_name : String)
    (h : fees.lookup algorithm = none) :
    bot_calculate_profit algorithm rental_price pool_profit pool_name fees =
      pool_profit - rental_price * (1 + 3/100) - pool_profit * pool_fee_rate pool_name ∧
    ranking_fee fees algorithm = 3/100 ∧
    (nicehash_fees.lookup algorithm = none →
      calculate_net_profit algorithm rental_price pool_profit pool_name none =
        pool_profit - rental_price * (1 + 1/50) - pool_profit * pool_fee_rate pool_name) := by
  refine ⟨?_, ?_, fun h2 => ?_⟩
  · simp only [bot_calculate_profit, h]
  · simp only [ranking_fee, h]
  · simp only [calculate_net_profit, h2, Option.getD_none]

/-- Witness for `default_fee_rate_spec` at `fees = []`, `algorithm = KawPow`. -/
theorem default_fee_rate_spec_witness :
    bot_calculate_profit "KawPow" (1/1000) (1/500) "nicehash" [] =
      1/500 - (1/1000) * (1 + 3/100) - (1/500) * pool_fee_rate "nicehash" ∧
    calculate_net_profit "KawPow" (1/1000) (1/500) "nicehash" none =
      1/500 - (1/1000) * (1 + 1/50) - (1/500) * pool_fee_rate "nicehash" :=
  ⟨(default_fee_rate_spec [] "KawPow" (1/1000) (1/500) "nicehash" rfl).1,
   (default_fee_rate_spec [] "KawPow" (1/1000) (1/500) "nicehash" rfl).2.2
     (by simp [nicehash_fees, List.lookup])⟩

/-- C4 counterexample: with an empty market-price map and a non-empty
pool-profitability map, `execute_trading_strategy` still aborts before the
profit-record computation, though the claim says it proceeds whenever at least
one of the two maps is non-empty. -/
theorem execute_trading_strategy_aborts_on_one_empty :
    execute_trading_strategy_proceeds [] [("SHA256", 1/500)] = false ∧
    ([("SHA256", (1:ℚ)/500)] : List (String × ℚ)).isEmpty = false := by
  constructor <;> rfl

/-- C4 amended: `execute_trading_strategy` reaches the profit-record
computation iff both the market-price map and the pool-profitability map are
non-empty (it aborts when either is empty);
`execute_enhanced_trading_strategy` reaches the profit-ranking computation iff
the market-price map is non-empty. -/
theorem trading_strategy_abort_spec (market_prices pool_profits : List (String × ℚ)) :
    (execute_trading_strategy_proceeds market_prices pool_profits = true ↔
      market_prices ≠ [] ∧ pool_profits ≠ []) ∧
    (execute_enhanced_strategy_proceeds market_prices pool_profits = true ↔
      market_prices ≠ []) := by
  cases market_prices <;> cases pool_profits <;>
    simp [execute_trading_strategy_proceeds, execute_enhanced_strategy_proceeds]

/-- Witness for `trading_strategy_abort_spec`: two non-empty maps let the
standard cycle proceed. -/
theorem trading_strategy_abort_spec_witness :
    execute_trading_strategy_proceeds [("SHA256", 1/1000)] [("SHA256", 1/500)] = true :=
  (trading_strategy_abort_spec [("SHA256", 1/1000)] [("SHA256", 1/500)]).1.mpr
    ⟨by simp, by simp⟩

/-- The fields of the `OrderStrategy` dataclass
(`enhanced_trading_strategy_en.py`) read by the order checks. -/
structure OrderStrategy where
  algorithm : String
  target_price : ℚ
  max_price : ℚ

/-- The `SmartOrderManager` state (`enhanced_trading_strategy_en.py`):
`active_orders` maps order ids to strategies, `max_orders` bounds their
number. -/
structure SmartOrderManager where
  active_orders : List (String × OrderStrategy)
  max_orders : Nat

/-- `SmartOrderManager.should_create_order`
(`enhanced_trading_strategy_en.py`): refuse without a valid API, at or above
the order-count limit, or with an existing order for the algorithm; otherwise
require `profit > 0.001`.  The `price` argument is accepted but unused, as in
the source. -/
def should_create_order (m : SmartOrderManager) (algorithm : String)
    (profit price : ℚ) (has_valid_api : Bool) : Bool :=
  if !has_valid_api then false
  else if m.max_orders ≤ m.active_orders.length then false
  else if m.active_orders.any (fun o => o.2.algorithm == algorithm) then false
  else decide ((1/1000 : ℚ) < profit)

/-- Speed limit modes (`speed_limit_manager.py`). -/
inductive SpeedLimitMode where
  | FIXED
  | ADAPTIVE
  | DYNAMIC
deriving DecidableEq

/-- The `SpeedLimitConfig` dataclass (`speed_limit_manager.py`) with its
declared defaults. -/
structure SpeedLimitConfig where
  max_speed_limit : ℚ := 1000
  mode : SpeedLimitMode := .ADAPTIVE
  adaptive_factor : ℚ := 4/5
  dynamic_threshold : ℚ := 1/100
  min_speed_limit : ℚ := 100
  speed_increment : ℚ := 50

/-- `SpeedLimitManager._calculate_adaptive_speed` (`speed_limit_manager.py`):
base speed scaled by a profit factor capped at 2 and a volatility factor
floored at 0.5, then clamped to `[min_speed_limit, max_speed_limit]`. -/
def calculate_adaptive_speed (cfg : SpeedLimitConfig)
    (profit market_volatility : ℚ) : ℚ :=
  let base_speed := cfg.max_speed_limit * cfg.adaptive_factor
  let profit_factor := min (profit / (1/100)) 2
  let volatility_factor := max (1/2) (1 - market_volatility)
  let adaptive_speed := base_speed * profit_factor * volatility_factor
  max cfg.min_speed_limit (min adaptive_speed cfg.max_speed_limit)

/-- The per-algorithm base speeds of
`SpeedLimitManager._calculate_dynamic_speed` (`speed_limit_manager.py`). -/
def algorithm_speeds : List (String × ℚ) :=
  [("SHA256", 1000), ("Ethash", 800), ("Lyra2REv2", 600),
   ("BeamHash", 500), ("CuckooCycle", 400)]

/-- `SpeedLimitManager._calculate_dynamic_speed` (`speed_limit_manager.py`). -/
def calculate_dynamic_speed (cfg : SpeedLimitConfig) (algorithm : String)
    (profit : ℚ) : ℚ :=
  let base_speed := (algorithm_speeds.lookup algorithm).getD 500
  let speed_multiplier :=
    if cfg.dynamic_threshold < profit then min (profit / cfg.dynamic_threshold) (3/2)
    else max (profit / cfg.dynamic_threshold) (3/10)
  let dynamic_speed := base_speed * speed_multiplier
  max cfg.min_speed_limit (min dynamic_speed cfg.max_speed_limit)

/-- `SpeedLimitManager.calculate_optimal_speed` (`speed_limit_manager.py`):
dispatch on the configured mode. -/
def calculate_optimal_speed (cfg : SpeedLimitConfig) (algorithm : String)
    (profit market_volatility : ℚ) : ℚ :=
  match cfg.mode with
  | .FIXED => cfg.max_speed_limit
  | .ADAPTIVE => calculate_adaptive_speed cfg profit market_volatility
  | .DYNAMIC => calculate_dynamic_speed cfg algorithm profit

/-- C7 counterexample: with valid credentials, no active orders, a free slot
and profit exactly at the threshold 0.001 — so none of the claim's four
refusal conditions holds — `should_create_order` still returns `false`,
because the source requires `profit > 0.001` strictly. -/
theorem should_create_order_threshold_boundary :
    should_create_order ⟨[], 5⟩ "SHA256" (1/1000) (1/1000) true = false ∧
    ¬((1/1000 : ℚ) < 1/1000) := by
  constructor
  · simp [should_create_order]
  · norm_num

/-- C7 amended: `should_create_order` returns true iff the API flag is set,
the active-order count is strictly below `max_orders`, no active order exists
for the algorithm, and the profit is strictly above the threshold 0.001
(so it also returns false at profit exactly 0.001). -/
theorem should_create_order_spec (m : SmartOrderManager) (algorithm : String)
    (profit price : ℚ) (has_valid_api : Bool) :
    should_create_order m algorithm profit price has_valid_api = true ↔
      has_valid_api = true ∧ m.active_orders.length < m.max_orders ∧
      (∀ o ∈ m.active_orders, o.2.algorithm ≠ algorithm) ∧ 1/1000 < profit := by
  have hmain : should_create_order m algorithm profit price has_valid_api = true ↔
      (¬(!has_valid_api) = true ∧ ¬m.max_orders ≤ m.active_orders.length ∧
        ¬m.active_orders.any (fun o => o.2.algorithm == algorithm) = true ∧
        1/1000 < profit) := by
    unfold should_create_order
    split_ifs with h1 h2 h3 <;> simp_all <;> tauto
  rw [hmain, Nat.not_le]
  simp only [Bool.not_eq_true', Bool.not_eq_true, List.any_eq_true, not_exists, not_and,
    beq_iff_eq, ne_eq]
  constructor
  · rintro ⟨hv, hlen, hany, hp⟩
    refine ⟨by simpa using hv, hlen, fun o ho => by simpa using hany o ho, hp⟩
  · rintro ⟨hv, hlen, hany, hp⟩
    refine ⟨by simpa using hv, hlen, fun o ho => by simpa using hany o ho, hp⟩

/-- Witness for `should_create_order_spec`: an empty manager with one free
slot accepts a sufficiently profitable order. -/
theorem should_create_order_spec_witness :
    should_create_order ⟨[], 5⟩ "SHA256" (1/100) 1 true = true :=
  (should_create_order_spec ⟨[], 5⟩ "SHA256" (1/100) 1 true).mpr
    ⟨rfl, by simp, by simp, by norm_num⟩

/-- C8 counterexample: a configuration with `min_speed_limit = -20 ≤
max_speed_limit = -5` (the claim's only stated precondition) and
`adaptive_factor = 2` on which doubling a nonnegative profit strictly
decreases the adaptive speed. -/
theorem adaptive_speed_not_monotone :
    (-20 : ℚ) ≤ -5 ∧ (0 : ℚ) ≤ 1/200 ∧
    calculate_optimal_speed
        { max_speed_limit := -5, mode := .ADAPTIVE, adaptive_factor := 2,
          min_speed_limit := -20 } "SHA256" (2 * (1/200)) 0 <
      calculate_optimal_speed
        { max_speed_limit := -5, mode := .ADAPTIVE, adaptive_factor := 2,
          min_speed_limit := -20 } "SHA256" (1/200) 0 := by
  refine ⟨by norm_num, by norm_num, ?_⟩
  norm_num [calculate_optimal_speed, calculate_adaptive_speed, min_def, max_def]

/-- C8 amended: in ADAPTIVE mode, when `0 ≤ min_speed_limit ≤
max_speed_limit`, the computed speed always lies in
`[min_speed_limit, max_speed_limit]`, and doubling a nonnegative profit never
decreases it. -/
theorem adaptive_speed_spec (cfg : SpeedLimitConfig) (algorithm : String)
    (profit volatility : ℚ) (hmode : cfg.mode = .ADAPTIVE)
    (h0 : 0 ≤ cfg.min_speed_limit) (h1 : cfg.min_speed_limit ≤ cfg.max_speed_limit) :
    (cfg.min_speed_limit ≤ calculate_optimal_speed cfg algorithm profit volatility ∧
      calculate_optimal_speed cfg algorithm profit volatility ≤ cfg.max_speed_limit) ∧
    (0 ≤ profit →
      calculate_optimal_speed cfg algorithm profit volatility ≤
        calculate_optimal_speed cfg algorithm (2 * profit) volatility) := by
  have hopt : ∀ p, calculate_optimal_speed cfg algorithm p volatility =
      calculate_adaptive_speed cfg p volatility := by
    intro p
    unfold calculate_optimal_speed
    rw [hmode]
  constructor
  · rw [hopt]
    unfold calculate_adaptive_speed
    exact ⟨le_max_left _ _, max_le h1 (min_le_right _ _)⟩
  · intro hp
    rw [hopt, hopt]
    unfold calculate_adaptive_speed
    dsimp only
    have hvf : (0 : ℚ) ≤ max (1/2) (1 - volatility) :=
      le_trans (by norm_num) (le_max_left _ _)
    have hpf0 : (0 : ℚ) ≤ min (profit / (1/100)) 2 :=
      le_min (by positivity) (by norm_num)
    have hpf0' : (0 : ℚ) ≤ min (2 * profit / (1/100)) 2 :=
      le_min (by positivity) (by norm_num)
    have hpfmono : min (profit / (1/100)) 2 ≤ min (2 * profit / (1/100)) 2 :=
      min_le_min ((div_le_div_right (by norm_num)).mpr (by linarith)) le_rfl
    rcases le_or_lt 0 (cfg.max_speed_limit * cfg.adaptive_factor) with hb | hb
    · refine max_le_max le_rfl (min_le_min ?_ le_rfl)
      exact mul_le_mul_of_nonneg_right (mul_le_mul_of_nonneg_left hpfmono hb) hvf
    · have hs1 : cfg.max_speed_limit * cfg.adaptive_factor *
          min (profit / (1/100)) 2 * max (1/2) (1 - volatility) ≤ 0 :=
        mul_nonpos_of_nonpos_of_nonneg
          (mul_nonpos_of_nonpos_of_nonneg hb.le hpf0) hvf
      have hs2 : cfg.max_speed_limit * cfg.adaptive_factor *
          min (2 * profit / (1/100)) 2 * max (1/2) (1 - volatility) ≤ 0 :=
        mul_nonpos_of_nonpos_of_nonneg
          (mul_nonpos_of_nonpos_of_nonneg hb.le hpf0') hvf
      rw [max_eq_left (le_trans (min_le_left _ _) (hs1.trans h0)),
        max_eq_left (le_trans (min_le_left _ _) (hs2.trans h0))]

/-- Witness for `adaptive_speed_spec` at the default configuration. -/
theorem adaptive_speed_spec_witness :
    (({} : SpeedLimitConfig).min_speed_limit ≤
        calculate_optimal_speed {} "SHA256" (1/100) 0 ∧
      calculate_optimal_speed {} "SHA256" (1/100) 0 ≤
        ({} : SpeedLimitConfig).max_speed_limit) ∧
    calculate_optimal_speed {} "SHA256" (1/100) 0 ≤
      calculate_optimal_speed {} "SHA256" (2 * (1/100)) 0 :=
  ⟨(adaptive_speed_spec {} "SHA256" (1/100) 0 rfl (by norm_num) (by norm_num)).1,
   (adaptive_speed_spec {} "SHA256" (1/100) 0 rfl (by norm_num) (by norm_num)).2
     (by norm_num)⟩

/-- The `TTLCache` state (`cache_utils.py`): the default TTL in seconds and
the underlying dictionary, embedded as an association list in insertion order;
each entry stores the value and its absolute expiry time. -/
structure TTLCache (α : Type) where
  default_ttl : Int
  cache : List (String × α × ℚ)

/-- Python dict read: the first entry with the key. -/
def lookupKey {α : Type} : List (String × α × ℚ) → String → Option (α × ℚ)
  | [], _ => none
  | e :: rest, k => if e.1 = k then some e.2 else lookupKey rest k

/-- Python dict assignment: overwrite in place, or append a new entry. -/
def setEntry {α : Type} : List (String × α × ℚ) → String → α × ℚ →
    List (String × α × ℚ)
  | [], k, ve => [(k, ve)]
  | e :: rest, k, ve => if e.1 = k then (k, ve) :: rest else e :: setEntry rest k ve

/-- Python `del dict[key]`. -/
def eraseKey {α : Type} : List (String × α × ℚ) → String → List (String × α × ℚ)
  | [], _ => []
  | e :: rest, k => if e.1 = k then rest else e :: eraseKey rest k

/-- `TTLCache.get` (`cache_utils.py`): return the value while
`time.time() < expire_time`; once expired, delete the entry and return
`None`.  `now` stands for `time.time()`; the possibly-purged cache is
returned alongside the result. -/
def TTLCache.get {α : Type} (c : TTLCache α) (now : ℚ) (key : String) :
    Option α × TTLCache α :=
  match lookupKey c.cache key with
  | none => (none, c)
  | some (v, expire_time) =>
    if now < expire_time then (some v, c)
    else (none, ⟨c.default_ttl, eraseKey c.cache key⟩)

/-- `TTLCache.set` (`cache_utils.py`): `ttl = ttl or self.default_ttl`
replaces a missing (`none`) or zero TTL by the default; the entry expires at
`time.time() + ttl`. -/
def TTLCache.set {α : Type} (c : TTLCache α) (now : ℚ) (key : String)
    (value : α) (ttl : Option Int) : TTLCache α :=
  let t : Int :=
    match ttl with
    | none => c.default_ttl
    | some n => if n = 0 then c.default_ttl else n
  ⟨c.default_ttl, setEntry c.cache key (value, now + (t : ℚ))⟩

/-- `TTLCache.size` (`cache_utils.py`): `len(self._cache)`, counting every
stored entry whether or not it has expired. -/
def TTLCache.size {α : Type} (c : TTLCache α) : Nat := c.cache.length

/-- Modelled from the spec: the "live (unexpired) entries" at a time are those
whose expiry lies strictly in the future.  Defined only to compare against
`TTLCache.size`. -/
def TTLCache.liveSize {α : Type} (c : TTLCache α) (now : ℚ) : Nat :=
  (c.cache.filter (fun e => decide (now < e.2.2))).length

/-- The complementary count: stored entries already expired at a time. -/
def TTLCache.expiredSize {α : Type} (c : TTLCache α) (now : ℚ) : Nat :=
  (c.cache.filter (fun e => !decide (now < e.2.2))).length

theorem lookupKey_setEntry {α : Type} (l : List (String × α × ℚ)) (k : String)
    (ve : α × ℚ) : lookupKey (setEntry l k ve) k = some ve := by
  induction l with
  | nil => simp [setEntry, lookupKey]
  | cons e rest ih =>
    by_cases h : e.1 = k
    · simp [setEntry, h, lookupKey]
    · simp [setEntry, h, lookupKey, ih]

theorem lookupKey_eq_none {α : Type} (l : List (String × α × ℚ)) (k : String)
    (h : k ∉ l.map (fun e => e.1)) : lookupKey l k = none := by
  induction l with
  | nil => rfl
  | cons e rest ih =>
    simp only [List.map_cons, List.mem_cons] at h
    push_neg at h
    have hne : ¬e.1 = k := fun he => h.1 he.symm
    simp [lookupKey, hne, ih h.2]

theorem mem_keys_setEntry {α : Type} (l : List (String × α × ℚ)) (k a : String)
    (ve : α × ℚ) (h : a ∈ (setEntry l k ve).map (fun e => e.1)) :
    a = k ∨ a ∈ l.map (fun e => e.1) := by
  induction l with
  | nil => simpa [setEntry] using h
  | cons e rest ih =>
    by_cases he : e.1 = k
    · simp only [setEntry, if_pos he, List.map_cons, List.mem_cons] at h
      rcases h with h | h
      · exact Or.inl h
      · exact Or.inr (by simp [h])
    · simp only [setEntry, if_neg he, List.map_cons, List.mem_cons] at h
      rcases h with h | h
      · exact Or.inr (by simp [h])
      · rcases ih h with h2 | h2
        · exact Or.inl h2
        · exact Or.inr (by simp [h2])

theorem keys_nodup_setEntry {α : Type} (l : List (String × α × ℚ)) (k : String)
    (ve : α × ℚ) (h : (l.map (fun e => e.1)).Nodup) :
    ((setEntry l k ve).map (fun e => e.1)).Nodup := by
  induction l with
  | nil => simp [setEntry]
  | cons e rest ih =>
    simp only [List.map_cons, List.nodup_cons] at h
    by_cases he : e.1 = k
    · simp only [setEntry, if_pos he, List.map_cons, List.nodup_cons]
      exact ⟨he ▸ h.1, h.2⟩
    · simp only [setEntry, if_neg he, List.map_cons, List.nodup_cons]
      refine ⟨fun hmem => ?_, ih h.2⟩
      rcases mem_keys_setEntry rest k e.1 ve hmem with h2 | h2
      · exact he h2
      · exact h.1 h2

theorem lookupKey_eraseKey {α : Type} (l : List (String × α × ℚ)) (k : String)
    (h : (l.map (fun e => e.1)).Nodup) : lookupKey (eraseKey l k) k = none := by
  induction l with
  | nil => rfl
  | cons e rest ih =>
    simp only [List.map_cons, List.nodup_cons] at h
    by_cases he : e.1 = k
    · rw [eraseKey, if_pos he]
      exact lookupKey_eq_none rest k (he ▸ h.1)
    · rw [eraseKey, if_neg he, lookupKey, if_neg he]
      exact ih h.2

theorem length_filter_split {α : Type} (l : List (String × α × ℚ)) (p : String × α × ℚ → Bool) :
    l.length = (l.filter p).length + (l.filter (fun e => !p e)).length := by
  induction l with
  | nil => rfl
  | cons e rest ih =>
    by_cases h : p e = true
    · simp [List.filter_cons, h, ih]
      omega
    · simp only [Bool.not_eq_true] at h
      simp [List.filter_cons, h, ih]
      omega

/-- C5 counterexample: an entry stored at time 0 with TTL 1 is expired at time
2 — `get` already reports it absent — yet `size()` still counts it, so
`size()` does not count only live (unexpired) entries. -/
theorem ttlcache_size_counts_expired :
    ((TTLCache.set (⟨60, []⟩ : TTLCache String) 0 "k" "v" (some 1)).size = 1) ∧
    ((TTLCache.set (⟨60, []⟩ : TTLCache String) 0 "k" "v" (some 1)).liveSize 2 = 0) ∧
    (((TTLCache.set (⟨60, []⟩ : TTLCache String) 0 "k" "v" (some 1)).get 2 "k").1 = none) := by
  refine ⟨rfl, ?_, ?_⟩
  · simp [TTLCache.set, TTLCache.liveSize, setEntry]
  · simp [TTLCache.set, TTLCache.get, setEntry, lookupKey]

/-- C5 amended: after `set(k, v, ttl)` with a positive TTL, `get(k)` returns
`v` at every time strictly before the expiry and returns absent — purging the
entry — at every time at or after it; `size()` however counts all stored
entries, live and expired alike (`size = liveSize + expiredSize` at every
time), not only the live ones. -/
theorem ttlcache_get_set_spec {α : Type} (c : TTLCache α) (now : ℚ)
    (key : String) (value : α) (ttl : Int) (h : 0 < ttl)
    (hnodup : (c.cache.map (fun e => e.1)).Nodup) :
    (∀ t, t < now + ttl →
      ((c.set now key value (some ttl)).get t key).1 = some value) ∧
    (∀ t, now + ttl ≤ t →
      ((c.set now key value (some ttl)).get t key).1 = none ∧
      lookupKey (((c.set now key value (some ttl)).get t key).2).cache key = none) ∧
    (∀ (d : TTLCache α) (t : ℚ), d.size = d.liveSize t + d.expiredSize t) := by
  have hne : ttl ≠ 0 := by omega
  have hset : (c.set now key value (some ttl)).cache =
      setEntry c.cache key (value, now + (ttl : ℚ)) := by
    simp [TTLCache.set, hne]
  refine ⟨fun t ht => ?_, fun t ht => ?_, fun d t => ?_⟩
  · simp only [TTLCache.get, hset, lookupKey_setEntry]
    rw [if_pos ht]
  · simp only [TTLCache.get, hset, lookupKey_setEntry]
    rw [if_neg (not_lt.mpr ht)]
    refine ⟨rfl, ?_⟩
    exact lookupKey_eraseKey _ key (keys_nodup_setEntry c.cache key _ hnodup)
  · exact length_filter_split d.cache _

/-- Witness for `ttlcache_get_set_spec` on a singleton cache. -/
theorem ttlcache_get_set_spec_witness :
    (((⟨60, []⟩ : TTLCache String).set 0 "k" "v" (some 5)).get 1 "k").1 = some "v" ∧
    (((⟨60, []⟩ : TTLCache String).set 0 "k" "v" (some 5)).get 7 "k").1 = none :=
  ⟨(ttlcache_get_set_spec (⟨60, []⟩ : TTLCache String) 0 "k" "v" 5 (by norm_num)
      (by simp)).1 1 (by norm_num),
   ((ttlcache_get_set_spec (⟨60, []⟩ : TTLCache String) 0 "k" "v" 5 (by norm_num)
      (by simp)).2.1 7 (by norm_num)).1⟩

/-- C10 counterexample: `set` with the (truthy) negative TTL −1 stores an
entry that is already expired — the immediately following `get` at the very
insertion time reports it absent — so `set` can insert an already-expired
entry. -/
theorem ttlcache_set_negative_ttl :
    (((⟨60, []⟩ : TTLCache String).set 0 "k" "v" (some (-1))).get 0 "k").1 = none ∧
    ((⟨60, []⟩ : TTLCache String).set 0 "k" "v" (some (-1))).size = 1 := by
  constructor
  · simp [TTLCache.set, TTLCache.get, setEntry, lookupKey]
    norm_num
  · rfl

/-- C10 amended: a falsy TTL (`none` or `0`) makes `set` store the entry with
the cache's `default_ttl` — so with a positive `default_ttl` an immediate
`get(k)` returns `v` — and a `set` with a positive effective TTL never inserts
an already-expired entry; a negative explicit TTL, however, does. -/
theorem ttlcache_set_falsy_ttl_spec {α : Type} (c : TTLCache α) (now : ℚ)
    (key : String) (value : α) :
    (c.set now key value none = c.set now key value (some c.default_ttl)) ∧
    (c.set now key value (some 0) = c.set now key value (some c.default_ttl)) ∧
    (0 < c.default_ttl → ((c.set now key value none).get now key).1 = some value) ∧
    (∀ ttl : Int, 0 < ttl → ∀ t, t ≤ now →
      ((c.set now key value (some ttl)).get t key).1 = some value) := by
  refine ⟨?_, ?_, fun hpos => ?_, fun ttl hpos t ht => ?_⟩
  · by_cases hd : c.default_ttl = 0 <;> simp [TTLCache.set, hd]
  · by_cases hd : c.default_ttl = 0 <;> simp [TTLCache.set, hd]
  · have hlt : now < now + (c.default_ttl : ℚ) := by
      have h2 : (0 : ℚ) < (c.default_ttl : ℚ) := by exact_mod_cast hpos
      linarith
    have hset : (c.set now key value none).cache =
        setEntry c.cache key (value, now + (c.default_ttl : ℚ)) := by
      simp [TTLCache.set]
    simp only [TTLCache.get, hset, lookupKey_setEntry]
    rw [if_pos hlt]
  · have hne : ttl ≠ 0 := by omega
    have hlt : t < now + (ttl : ℚ) := by
      have h2 : (0 : ℚ) < (ttl : ℚ) := by exact_mod_cast hpos
      linarith
    have hset : (c.set now key value (some ttl)).cache =
        setEntry c.cache key (value, now + (ttl : ℚ)) := by
      simp [TTLCache.set, hne]
    simp only [TTLCache.get, hset, lookupKey_setEntry]
    rw [if_pos hlt]

/-- Witness for `ttlcache_set_falsy_ttl_spec` on a singleton cache with
positive default TTL. -/
theorem ttlcache_set_falsy_ttl_spec_witness :
    (((⟨60, []⟩ : TTLCache String).set 0 "k" "v" none).get 0 "k").1 = some "v" ∧
    (((⟨60, []⟩ : TTLCache String).set 0 "k" "v" (some 5)).get 0 "k").1 = some "v" :=
  ⟨(ttlcache_set_falsy_ttl_spec (⟨60, []⟩ : TTLCache String) 0 "k" "v").2.2.1
      (by norm_num),
   (ttlcache_set_falsy_ttl_spec (⟨60, []⟩ : TTLCache String) 0 "k" "v").2.2.2
      5 (by norm_num) 0 (by norm_num)⟩

/-- The loop of `RetryManager.retry_with_backoff` (`cache_utils.py`), counting
down the remaining iterations of `for attempt in range(max_attempts)`.
`op i` is the outcome of the i-th invocation of the operation (0-indexed);
raising is `Except.error`.  The triple records the final outcome (returned
value or the re-raised last failure), the number of invocations performed,
and the sleeps `backoff_factor ** attempt` executed after each failed
non-final attempt.  The `rem = 0` base case is unreachable whenever
`max_attempts ≥ 1`. -/
def retry_go {α : Type} (op : Nat → Except String α) (backoff : ℚ) :
    Nat → Nat → Except String α × Nat × List ℚ
  | _, 0 => (Except.error "", 0, [])
  | attempt, rem + 1 =>
    match op attempt with
    | Except.ok v => (Except.ok v, 1, [])
    | Except.error e =>
      match rem with
      | 0 => (Except.error e, 1, [])
      | r + 1 =>
        let res := retry_go op backoff (attempt + 1) (r + 1)
        (res.1, res.2.1 + 1, backoff ^ attempt :: res.2.2)

/-- `RetryManager.retry_with_backoff` (`cache_utils.py`): run the loop from
attempt 0. -/
def retry_with_backoff {α : Type} (op : Nat → Except String α)
    (max_attempts : Nat) (backoff : ℚ) : Except String α × Nat × List ℚ :=
  retry_go op backoff 0 max_attempts

theorem range_pow_shift (backoff : ℚ) (attempt m : Nat) :
    (List.range (m + 1)).map (fun i => backoff ^ (attempt + i)) =
      backoff ^ attempt :: (List.range m).map (fun i => backoff ^ (attempt + 1 + i)) := by
  rw [List.range_succ_eq_map, List.map_cons, List.map_map, Nat.add_zero]
  congr 1
  apply List.map_congr_left
  intro i hi
  simp only [Function.comp_apply]
  congr 1
  omega

theorem retry_go_ok {α : Type} (op : Nat → Except String α) (backoff : ℚ) (v : α) :
    ∀ (m attempt rem : Nat), m < rem →
      (∀ i, i < m → ∃ e, op (attempt + i) = Except.error e) →
      op (attempt + m) = Except.ok v →
      retry_go op backoff attempt rem =
        (Except.ok v, m + 1, (List.range m).map (fun i => backoff ^ (attempt + i))) := by
  intro m
  induction m with
  | zero =>
    intro attempt rem hlt hfail hok
    rw [Nat.add_zero] at hok
    match rem, hlt with
    | r + 1, _ => simp [retry_go, hok]
  | succ m ih =>
    intro attempt rem hlt hfail hok
    match rem, hlt with
    | r + 1, hlt =>
      obtain ⟨e, he⟩ := hfail 0 (Nat.succ_pos m)
      rw [Nat.add_zero] at he
      have hr : m < r := by omega
      match r, hr with
      | r2 + 1, hr =>
        have ih2 := ih (attempt + 1) (r2 + 1) (by omega)
          (fun i hi => by
            have h3 := hfail (i + 1) (by omega)
            rwa [show attempt + (i + 1) = attempt + 1 + i by omega] at h3)
          (by rwa [show attempt + 1 + m = attempt + (m + 1) by omega])
        simp only [retry_go, he, ih2]
        rw [range_pow_shift]

theorem retry_go_err {α : Type} (op : Nat → Except String α) (backoff : ℚ)
    (err : Nat → String) (hop : ∀ i, op i = Except.error (err i)) :
    ∀ (rem attempt : Nat), 1 ≤ rem →
      retry_go op backoff attempt rem =
        (Except.error (err (attempt + rem - 1)), rem,
          (List.range (rem - 1)).map (fun i => backoff ^ (attempt + i))) := by
  intro rem
  induction rem with
  | zero => intro attempt h; omega
  | succ r ih =>
    intro attempt h
    cases r with
    | zero => simp [retry_go, hop attempt]
    | succ r2 =>
      have ih2 := ih (attempt + 1) (by omega)
      simp only [retry_go, hop attempt, ih2]
      rw [show attempt + 1 + (r2 + 1) - 1 = attempt + (r2 + 1 + 1) - 1 by omega,
        show r2 + 1 + 1 - 1 = r2 + 1 by omega, show r2 + 1 - 1 = r2 by omega,
        range_pow_shift]

/-- C6: for every `max_attempts ≥ 1`, an operation failing exactly `m <
max_attempts` times and then succeeding makes `retry_with_backoff` return the
success value after exactly `m + 1` invocations, sleeping
`backoff_factor ^ attempt` seconds (attempt 0-indexed) between consecutive
invocations; an always-failing operation is invoked exactly `max_attempts`
times and its last failure is re-raised, with the same sleep schedule between
invocations. -/
theorem retry_with_backoff_spec {α : Type} (op : Nat → Except String α)
    (max_attempts : Nat) (backoff : ℚ) (m : Nat) (v : α) (err : Nat → String) :
    (m < max_attempts → (∀ i, i < m → ∃ e, op i = Except.error e) →
      op m = Except.ok v →
      retry_with_backoff op max_attempts backoff =
        (Except.ok v, m + 1, (List.range m).map (fun i => backoff ^ i))) ∧
    (1 ≤ max_attempts → (∀ i, op i = Except.error (err i)) →
      retry_with_backoff op max_attempts backoff =
        (Except.error (err (max_attempts - 1)), max_attempts,
          (List.range (max_attempts - 1)).map (fun i => backoff ^ i))) := by
  constructor
  · intro h1 h2 h3
    have h4 := retry_go_ok op backoff v m 0 max_attempts h1
      (by simpa using h2) (by simpa using h3)
    simpa [retry_with_backoff] using h4
  · intro h1 h2
    have h4 := retry_go_err op backoff err h2 max_attempts 0 h1
    simpa [retry_with_backoff] using h4

/-- Witness for `retry_with_backoff_spec`: one failure then success returns
after 2 invocations with a single 1-second sleep; an always-failing operation
with `max_attempts = 3` and factor 2 raises after 3 invocations with sleeps
of 1 and 2 seconds. -/
theorem retry_with_backoff_spec_witness :
    retry_with_backoff (fun i => if i = 0 then Except.error "e" else Except.ok "v") 3 2 =
      (Except.ok "v", 2, [1]) ∧
    retry_with_backoff (fun _ => (Except.error "boom" : Except String String)) 3 2 =
      (Except.error "boom", 3, [1, 2]) := by
  constructor
  · have h := (retry_with_backoff_spec
        (fun i => if i = 0 then Except.error "e" else Except.ok "v") 3 2 1 "v"
        (fun _ => "e")).1 (by omega)
      (fun i hi => ⟨"e", by have h0 : i = 0 := by omega
                            subst h0
                            simp⟩)
      (by simp)
    rw [h]
    norm_num [List.range_succ]
  · have h := (retry_with_backoff_spec
        (fun _ => (Except.error "boom" : Except String String)) 3 2 0 "v"
        (fun _ => "boom")).2 (by omega) (fun i => rfl)
    rw [h]
    norm_num [List.range_succ]

/-- A registered data source (`DataSourceManager._initialize_data_sources`,
`data_source_manager.py`): its registry id, its `type` field (the category)
and its priority number. -/
structure DataSource where
  id : String
  type : String
  priority : Nat

/-- Priority comparison used by `sorted(..., key=lambda x: x[1]['priority'])`. -/
def prioLE (a b : DataSource) : Prop := a.priority ≤ b.priority

instance : DecidableRel prioLE := fun a b => Nat.decLe a.priority b.priority

instance : IsTotal DataSource prioLE := ⟨fun a b => Nat.le_total a.priority b.priority⟩

instance : IsTrans DataSource prioLE := ⟨fun _ _ _ => Nat.le_trans⟩

/-- The category filter plus ascending stable sort by priority shared by
`get_mining_profitability_data` and `get_price_data`
(`data_source_manager.py`). -/
def sources_by_priority (sources : List DataSource) (category : String) :
    List DataSource :=
  (sources.filter (fun s => s.type == category)).insertionSort prioLE

/-- Outcome of invoking a source's category adaptor: the call either raises
or produces a mapping. -/
inductive FetchOutcome where
  | raised
  | data (d : List (String × ℚ))

/-- The source loop shared by `get_mining_profitability_data` and
`get_price_data` (`data_source_manager.py`): skip every source whose health
status is not `healthy`, return the first adaptor result, continue past a
raising adaptor, and fall back to the empty mapping. -/
def route_fetch (fetch : String → FetchOutcome) (health : String → String) :
    List DataSource → List (String × ℚ)
  | [] => []
  | s :: rest =>
    if health s.id ≠ "healthy" then route_fetch fetch health rest
    else
      match fetch s.id with
      | .raised => route_fetch fetch health rest
      | .data d => d

/-- A category fetch (`get_mining_profitability_data` / `get_price_data`):
run the loop over the category's sources in ascending priority order. -/
def get_category_data (fetch : String → FetchOutcome) (health : String → String)
    (sources : List DataSource) (category : String) : List (String × ℚ) :=
  route_fetch fetch health (sources_by_priority sources category)

/-- The sources on which the loop actually invokes an adaptor, in order. -/
def route_fetch_trace (fetch : String → FetchOutcome) (health : String → String) :
    List DataSource → List DataSource
  | [] => []
  | s :: rest =>
    if health s.id ≠ "healthy" then route_fetch_trace fetch health rest
    else
      match fetch s.id with
      | .raised => s :: route_fetch_trace fetch health rest
      | .data _ => [s]

theorem route_fetch_trace_sublist (fetch : String → FetchOutcome)
    (health : String → String) :
    ∀ l, List.Sublist (route_fetch_trace fetch health l) l := by
  intro l
  induction l with
  | nil => exact List.Sublist.refl _
  | cons s rest ih =>
    rw [route_fetch_trace]
    by_cases h : health s.id ≠ "healthy"
    · rw [if_pos h]
      exact ih.cons s
    · rw [if_neg h]
      cases fetch s.id with
      | raised => exact ih.cons₂ s
      | data d => exact (List.nil_sublist rest).cons₂ s

theorem route_fetch_trace_healthy (fetch : String → FetchOutcome)
    (health : String → String) :
    ∀ l, ∀ s ∈ route_fetch_trace fetch health l, health s.id = "healthy" := by
  intro l
  induction l with
  | nil => intro s hs; simp [route_fetch_trace] at hs
  | cons s rest ih =>
    intro a ha
    rw [route_fetch_trace] at ha
    by_cases h : health s.id ≠ "healthy"
    · rw [if_pos h] at ha
      exact ih a ha
    · rw [if_neg h] at ha
      rw [not_not] at h
      cases hf : fetch s.id with
      | raised =>
        rw [hf] at ha
        rcases List.mem_cons.mp ha with h2 | h2
        · exact h2 ▸ h
        · exact ih a h2
      | data d =>
        rw [hf] at ha
        rcases List.mem_singleton.mp ha with h2
        exact h2 ▸ h

theorem route_fetch_eq_nil (fetch : String → FetchOutcome)
    (health : String → String) :
    ∀ l, (∀ s ∈ l, health s.id ≠ "healthy" ∨ fetch s.id = FetchOutcome.raised) →
      route_fetch fetch health l = [] := by
  intro l
  induction l with
  | nil => intro _; rfl
  | cons s rest ih =>
    intro hall
    rw [route_fetch]
    by_cases h : health s.id ≠ "healthy"
    · rw [if_pos h]
      exact ih fun a ha => hall a (List.mem_cons_of_mem s ha)
    · rw [if_neg h]
      rcases hall s (List.mem_cons_self s rest) with h2 | h2
      · exact absurd h2 h
      · rw [h2]
        exact ih fun a ha => hall a (List.mem_cons_of_mem s ha)

theorem mem_sources_by_priority (sources : List DataSource) (category : String)
    (s : DataSource) (hs : s ∈ sources_by_priority sources category) :
    s.type = category ∧ s ∈ sources := by
  rw [sources_by_priority, List.mem_insertionSort, List.mem_filter] at hs
  exact ⟨by simpa using hs.2, hs.1⟩

/-- C3: a category fetch tries only sources of the category, in ascending
priority order, skipping every non-healthy source and moving on when an
adaptor raises; when no source yields data it returns the empty mapping
(the embedding is a total function, so no exception escapes); and with the
three priorities 1, 2, 3 and the priority-1 source unhealthy, the result
comes from the priority-2 source. -/
theorem data_source_routing_spec (fetch : String → FetchOutcome)
    (health : String → String) (sources : List DataSource) (category : String) :
    (List.Sublist (route_fetch_trace fetch health (sources_by_priority sources category))
      (sources_by_priority sources category)) ∧
    (∀ s ∈ route_fetch_trace fetch health (sources_by_priority sources category),
      health s.id = "healthy" ∧ s.type = category ∧ s ∈ sources) ∧
    (route_fetch_trace fetch health (sources_by_priority sources category)).Sorted
      prioLE ∧
    ((∀ s ∈ sources, s.type = category →
        health s.id ≠ "healthy" ∨ fetch s.id = FetchOutcome.raised) →
      get_category_data fetch health sources category = []) ∧
    (∀ d1 d2 d3 : List (String × ℚ),
      get_category_data
        (fun i => if i = "s1" then FetchOutcome.data d1
                  else if i = "s2" then FetchOutcome.data d2 else FetchOutcome.data d3)
        (fun i => if i = "s1" then "unhealthy" else "healthy")
        [⟨"s1", category, 1⟩, ⟨"s2", category, 2⟩, ⟨"s3", category, 3⟩]
        category = d2) := by
  refine ⟨route_fetch_trace_sublist fetch health _, fun s hs => ?_, ?_, fun hall => ?_, ?_⟩
  · have h1 := route_fetch_trace_healthy fetch health _ s hs
    have h2 := mem_sources_by_priority sources category s
      ((route_fetch_trace_sublist fetch health _).mem hs)
    exact ⟨h1, h2.1, h2.2⟩
  · exact List.Pairwise.sublist (route_fetch_trace_sublist fetch health _)
      (List.sorted_insertionSort prioLE _)
  · refine route_fetch_eq_nil fetch health _ fun s hs => ?_
    have h2 := mem_sources_by_priority sources category s hs
    exact hall s h2.2 h2.1
  · intro d1 d2 d3
    simp [get_category_data, sources_by_priority, List.insertionSort,
      List.orderedInsert, prioLE, route_fetch]

/-- Witness for `data_source_routing_spec`: the all-unhealthy fallback and
the concrete three-source scenario, for one concrete registry. -/
theorem data_source_routing_spec_witness :
    get_category_data (fun _ => FetchOutcome.raised) (fun _ => "unhealthy")
      [⟨"a", "price_data", 1⟩] "price_data" = [] ∧
    get_category_data
      (fun i => if i = "s1" then FetchOutcome.data [("BTC", 1)]
                else if i = "s2" then FetchOutcome.data [("BTC", 2)]
                else FetchOutcome.data [("BTC", 3)])
      (fun i => if i = "s1" then "unhealthy" else "healthy")
      [⟨"s1", "price_data", 1⟩, ⟨"s2", "price_data", 2⟩, ⟨"s3", "price_data", 3⟩]
      "price_data" = [("BTC", 2)] :=
  ⟨(data_source_routing_spec (fun _ => FetchOutcome.raised) (fun _ => "unhealthy")
      [⟨"a", "price_data", 1⟩] "price_data").2.2.2.1
      (fun s hs ht => Or.inl (by simp)),
   (data_source_routing_spec
      (fun i => if i = "s1" then FetchOutcome.data [("BTC", 1)]
                else if i = "s2" then FetchOutcome.data [("BTC", 2)]
                else FetchOutcome.data [("BTC", 3)])
      (fun i => if i = "s1" then "unhealthy" else "healthy")
      [⟨"s1", "price_data", 1⟩, ⟨"s2", "price_data", 2⟩, ⟨"s3", "price_data", 3⟩]
      "price_data").2.2.2.2 [("BTC", 1)] [("BTC", 2)] [("BTC", 3)]⟩

/-- The algorithm → coin-name table of `ProfitRanking.__init__`
(`profit_ranking.py`). -/
def algorithm_names : List (String × String) :=
  [("SHA256", "Bitcoin (BTC)"), ("Scrypt", "Litecoin (LTC)"),
   ("Ethash", "Ethereum (ETH)"), ("X11", "Dash (DASH)"),
   ("CryptoNight", "Monero (XMR)"), ("Equihash", "Zcash (ZEC)"),
   ("Lyra2REv2", "Vertcoin (VTC)"), ("Blake2s", "Decred (DCR)"),
   ("Blake14r", "Siacoin (SC)"), ("DaggerHashimoto", "Ethereum Classic (ETC)")]

/-- One 9-tuple of `ProfitRanking.calculate_profit_ranking`
(`profit_ranking.py`), with fields in tuple-index order: index 2 is the token
price, index 3 the rental price (the same market price twice), index 7 the
net profit and index 8 the profit margin. -/
structure RankingEntry where
  algorithm : String
  coin_name : String
  token_price : ℚ
  rental_price : ℚ
  pool_profit : ℚ
  pool_fee : ℚ
  rental_fee : ℚ
  net_profit : ℚ
  profit_margin : ℚ

/-- The per-algorithm loop body of `ProfitRanking.calculate_profit_ranking`
(`profit_ranking.py`): iterate the market prices in insertion order, skip
algorithms without pool data or with non-positive pool profit, and build the
9-tuples. -/
def ranking_rows (market_prices pool_profits fees : List (String × ℚ))
    (pool_name : String) : List RankingEntry :=
  market_prices.filterMap (fun mp =>
    match pool_profits.lookup mp.1 with
    | none => none
    | some pool_profit =>
      if pool_profit ≤ 0 then none
      else
        let fee := ranking_fee fees mp.1
        let rental_cost := mp.2 * (1 + fee)
        let pfr := pool_fee_rate pool_name
        let net_profit := pool_profit - rental_cost - pool_profit * pfr
        some { algorithm := mp.1,
               coin_name := (algorithm_names.lookup mp.1).getD mp.1,
               token_price := mp.2,
               rental_price := mp.2,
               pool_profit := pool_profit,
               pool_fee := pool_profit * pfr,
               rental_fee := mp.2 * fee,
               net_profit := net_profit,
               profit_margin :=
                 if 0 < pool_profit then net_profit / pool_profit * 100 else 0 })

/-- Descending order on net profit (tuple index 7), the key of
`ranking_data.sort(key=..., reverse=True)`. -/
def netGE (a b : RankingEntry) : Prop := b.net_profit ≤ a.net_profit

instance : DecidableRel netGE :=
  fun a b => inferInstanceAs (Decidable (b.net_profit ≤ a.net_profit))

instance : IsTotal RankingEntry netGE := ⟨fun a b => le_total b.net_profit a.net_profit⟩

instance : IsTrans RankingEntry netGE :=
  ⟨fun _ _ _ h1 h2 => le_trans h2 h1⟩

/-- `ProfitRanking.calculate_profit_ranking` (`profit_ranking.py`): the rows,
stably sorted by net profit in descending order. -/
def calculate_profit_ranking (market_prices pool_profits fees : List (String × ℚ))
    (pool_name : String) : List RankingEntry :=
  (ranking_rows market_prices pool_profits fees pool_name).insertionSort netGE

/-- Python `max` over a non-empty list (the `[]` base case is unreachable:
`get_profit_summary` only calls it on non-empty rankings). -/
def listMax : List ℚ → ℚ
  | [] => 0
  | x :: xs => xs.foldl max x

/-- Python `min` over a non-empty list. -/
def listMin : List ℚ → ℚ
  | [] => 0
  | x :: xs => xs.foldl min x

/-- The dictionary returned by `ProfitRanking.get_profit_summary`
(`profit_ranking.py`). -/
structure ProfitSummary where
  total_profit : ℚ
  profitable_count : Nat
  unprofitable_count : Nat
  total_count : Nat
  avg_profit_margin : ℚ
  max_profit : ℚ
  min_profit : ℚ
  profitability_rate : ℚ

/-- `ProfitRanking.get_profit_summary` (`profit_ranking.py`): as in the
source, the aggregates read tuple index 2 (`item[2]`, the token price in the
9-tuple layout) and the mean reads index 3 (`item[3]`, the rental price);
an empty ranking yields `{}` (`none`). -/
def get_profit_summary (ranking : List RankingEntry) : Option ProfitSummary :=
  match ranking with
  | [] => none
  | _ :: _ =>
    some { total_profit := (ranking.map (fun e => e.token_price)).sum,
           profitable_count := ranking.countP (fun e => decide (0 < e.token_price)),
           unprofitable_count := ranking.countP (fun e => decide (e.token_price ≤ 0)),
           total_count := ranking.length,
           avg_profit_margin :=
             (ranking.map (fun e => e.rental_price)).sum / (ranking.length : ℚ),
           max_profit := listMax (ranking.map (fun e => e.token_price)),
           min_profit := listMin (ranking.map (fun e => e.token_price)),
           profitability_rate :=
             (ranking.countP (fun e => decide (0 < e.token_price)) : ℚ) /
               (ranking.length : ℚ) * 100 }

/-- C9: on the ranking produced for market price 0.001 and pool profit 0.0005
(a loss-making algorithm), every entry has negative net profit, yet
`get_profit_summary` reports one "profitable" entry and zero "unprofitable"
ones, a maximal "profit" of 0.001 (the rental price) and a mean "margin" of
0.001: the summary reads tuple indices 2 and 3 (the price fields of the
9-tuple) where the claimed net profit and margin sit at indices 7 and 8. -/
theorem get_profit_summary_reads_price_fields :
    (∀ e ∈ calculate_profit_ranking [("SHA256", 1/1000)] [("SHA256", 1/2000)] []
        "nicehash", e.net_profit < 0) ∧
    (get_profit_summary (calculate_profit_ranking [("SHA256", 1/1000)]
        [("SHA256", 1/2000)] [] "nicehash")).map (fun s => s.profitable_count) =
      some 1 ∧
    (get_profit_summary (calculate_profit_ranking [("SHA256", 1/1000)]
        [("SHA256", 1/2000)] [] "nicehash")).map (fun s => s.unprofitable_count) =
      some 0 ∧
    (get_profit_summary (calculate_profit_ranking [("SHA256", 1/1000)]
        [("SHA256", 1/2000)] [] "nicehash")).map (fun s => s.max_profit) =
      some (1/1000) ∧
    (get_profit_summary (calculate_profit_ranking [("SHA256", 1/1000)]
        [("SHA256", 1/2000)] [] "nicehash")).map (fun s => s.avg_profit_margin) =
      some (1/1000) := by
  have hrk : calculate_profit_ranking [("SHA256", 1/1000)] [("SHA256", 1/2000)] []
      "nicehash" =
      [{ algorithm := "SHA256", coin_name := "Bitcoin (BTC)",
         token_price := 1/1000, rental_price := 1/1000, pool_profit := 1/2000,
         pool_fee := (1/2000) * (1/50), rental_fee := (1/1000) * (3/100),
         net_profit := 1/2000 - (1/1000) * (1 + 3/100) - (1/2000) * (1/50),
         profit_margin :=
           (1/2000 - (1/1000) * (1 + 3/100) - (1/2000) * (1/50)) / (1/2000) * 100 }] := by
    have h : strLower "nicehash" = "nicehash" := by decide
    simp [calculate_profit_ranking, ranking_rows, ranking_fee, pool_fee_rate,
      pool_fees, algorithm_names, List.lookup, h, List.filterMap]
  rw [hrk]
  refine ⟨?_, ?_, ?_, ?_, ?_⟩
  · intro e he
    rw [List.mem_singleton] at he
    subst he
    norm_num
  · simp [get_profit_summary]
  · simp [get_profit_summary]
  · simp [get_profit_summary, listMax]
  · simp [get_profit_summary]

end NiceHashBot
